import Mathlib

/-!
Verification development for the airoleplay scoring and turn-aggregation
engine.  The Python sources are shallowly embedded over `List Char`
(Python strings), `Nat` (scores), and `Int` (cooperation levels and
segment timestamps, which the code only ever compares for order).

Embedded modules:
* `airoleplay/scoring/conversation_scorer.py` — `TurnScore`,
  `ConversationScorer.score_turn` and its sub-scorers;
* `airoleplay/characters/persona_character.py` —
  `PersonaCharacter.adjust_cooperation`;
* `airoleplay/call_analysis/audio_processor.py` — `CallTranscript` and its
  turn accessors;
* `airoleplay/call_analysis/call_analyzer.py` — `CallAnalyzer._extract_turns`
  and `CallAnalyzer._recommend_techniques`.

The magic-phrase and technique gazetteers are external JSON configuration
(spec section 4.1 and 6, files not part of the source tree), so the scorer is
parameterized by that configuration; none of the four sub-scores depend on it.
-/

/-- Python strings are embedded as lists of characters. -/
abbrev Str := List Char

/-- Python `str.lower()` (the rubric text is ASCII, where the two agree). -/
def lowerStr (s : Str) : Str := s.map Char.toLower

/-- `startsWith needle hay`: `hay` begins with `needle`. -/
def startsWith : Str → Str → Bool
  | [], _ => true
  | _ :: _, [] => false
  | a :: as, b :: bs => a == b && startsWith as bs

/-- Python's `needle in hay` substring test. -/
def containsSub (needle : Str) : Str → Bool
  | [] => startsWith needle []
  | c :: rest => startsWith needle (c :: rest) || containsSub needle rest

/-- Python regex `\w` on the ASCII range: letters, digits, underscore. -/
def isWordChar (c : Char) : Bool := c.isAlphanum || c == '_'

/-- Python regex `\s` on the ASCII range. -/
def isSpaceChar (c : Char) : Bool :=
  c == ' ' || c == '\t' || c == '\n' || c == '\r' || c == '\x0b' || c == '\x0c'

/-- A `\b` word boundary directly before a word character, given the previous
character of the text (`none` at the start of the string). -/
def boundaryBefore : Option Char → Bool
  | none => true
  | some p => !(isWordChar p)

/-- A `\b` word boundary directly after a word character, given the rest of
the text. -/
def afterBoundary : Str → Bool
  | [] => true
  | c :: _ => !(isWordChar c)

/-- Matcher for `.*lit` anchored at the current position: zero or more
non-newline characters followed by the literal `lit`. -/
def dotStarThen (lit : Str) : Str → Bool
  | [] => startsWith lit []
  | c :: rest => startsWith lit (c :: rest) || ((c != '\n') && dotStarThen lit rest)

/-- Matcher for `.+lit` anchored at the current position: one or more
non-newline characters followed by the literal `lit`. -/
def dotPlusThen (lit : Str) : Str → Bool
  | [] => false
  | c :: rest => (c != '\n') && dotStarThen lit rest

/-- `re.search` for a pattern of the shape `lit1.+lit2` (the shape of the
isolation patterns `besides .+, is there any` and `other than .+, is there`). -/
def searchSeq (lit1 lit2 : Str) : Str → Bool
  | [] => false
  | c :: rest =>
    (startsWith lit1 (c :: rest) && dotPlusThen lit2 ((c :: rest).drop lit1.length))
      || searchSeq lit1 lit2 rest

/-- `re.search` for `\b lit \b` where the literal `lit` is nonempty and starts
and ends with a word character (the shape of the rapport-breaker patterns
`\bactually\b`, `\bbut you said\b` and both alternatives of
`\byou'?re wrong\b`).  The first argument tracks the character preceding the
current position. -/
def searchWordLit (lit : Str) : Option Char → Str → Bool
  | _, [] => false
  | prev, c :: rest =>
    (boundaryBefore prev && startsWith lit (c :: rest)
      && afterBoundary ((c :: rest).drop lit.length))
      || searchWordLit lit (some c) rest

/-- Literal `i understand` of the rapport-breaker pattern
`\bi understand\b(?! your concern)`. -/
def iUnderstandLit : Str := "i understand".toList

/-- Literal ` your concern` of the negative lookahead in
`\bi understand\b(?! your concern)`. -/
def yourConcernLit : Str := " your concern".toList

/-- `re.search` for `\bi understand\b(?! your concern)`: a word-delimited
occurrence of `i understand` that is not followed by ` your concern`. -/
def searchIUnderstand : Option Char → Str → Bool
  | _, [] => false
  | prev, c :: rest =>
    (boundaryBefore prev && startsWith iUnderstandLit (c :: rest)
      && afterBoundary ((c :: rest).drop iUnderstandLit.length)
      && !(startsWith yourConcernLit ((c :: rest).drop iUnderstandLit.length)))
      || searchIUnderstand (some c) rest

/-- Success condition of the embedded-command regex
`\b[A-Z]{2,}(?:\s+[A-Z]{2,})*\b` at the current position: a word boundary,
then a run of at least two consecutive uppercase letters, with the character
after the run (if any) a non-word character.  (If a word character follows the
run, neither the final `\b` nor a further `\s+` group can match, and
backtracking inside a run of uppercase word characters cannot create a
boundary, so the match fails.) -/
def headCond (prev : Option Char) (s : Str) : Bool :=
  boundaryBefore prev && 2 ≤ (s.takeWhile Char.isUpper).length
    && afterBoundary (s.dropWhile Char.isUpper)

/-- Greedy continuation `(?:\s+[A-Z]{2,})*\b` of the embedded-command regex:
repeatedly absorb a nonempty whitespace run followed by a run of at least two
uppercase letters whose right end sits on a word boundary; stop otherwise.
Returns the absorbed text and the remainder.  Each step consumes at least
three characters, so fuel equal to the length of the text always suffices. -/
def extendEmbeddedFuel : Nat → Str → Str × Str
  | 0, rest => ([], rest)
  | fuel + 1, rest =>
    if 1 ≤ (rest.takeWhile isSpaceChar).length
        && 2 ≤ (((rest.dropWhile isSpaceChar)).takeWhile Char.isUpper).length
        && afterBoundary ((rest.dropWhile isSpaceChar).dropWhile Char.isUpper) then
      let res := extendEmbeddedFuel fuel ((rest.dropWhile isSpaceChar).dropWhile Char.isUpper)
      (rest.takeWhile isSpaceChar ++ (rest.dropWhile isSpaceChar).takeWhile Char.isUpper
        ++ res.1, res.2)
    else ([], rest)

/-- Greedy continuation of the embedded-command regex (fuel instantiated). -/
def extendEmbedded (rest : Str) : Str × Str := extendEmbeddedFuel rest.length rest

/-- First match of `re.findall(r'\b[A-Z]{2,}(?:\s+[A-Z]{2,})*\b', agent_full)`,
or `none` when the regex has no match.  `_score_handle` only inspects whether
the match list is nonempty (`if embedded and len(embedded) > 0`) and its first
element (`embedded[0]`), so the first match fully determines its behavior. -/
def findEmbeddedFirst : Option Char → Str → Option Str
  | _, [] => none
  | prev, c :: rest =>
    if headCond prev (c :: rest) then
      some ((c :: rest).takeWhile Char.isUpper
        ++ (extendEmbedded ((c :: rest).dropWhile Char.isUpper)).1)
    else findEmbeddedFirst (some c) rest

/-- The condition under which `_score_handle` awards the embedded-command
point: `re.findall(r'\b[A-Z]{2,}(?:\s+[A-Z]{2,})*\b', agent_full)` is
nonempty. -/
def embeddedAward (agent_full : Str) : Bool := (findEmbeddedFirst none agent_full).isSome

/-- Scanning predicate: somewhere in the text there is a run of at least two
consecutive uppercase letters preceded by the start of the string or a
non-word character and followed by the end of the string or a non-word
character. -/
def delimCapsRun : Option Char → Str → Bool
  | _, [] => false
  | prev, c :: rest => headCond prev (c :: rest) || delimCapsRun (some c) rest

/-- The text contains a word-boundary-delimited run of at least two
consecutive uppercase letters. -/
def hasDelimitedCapsRun (s : Str) : Bool := delimCapsRun none s

/-- Helper for `splitWs`: accumulate the current word. -/
def splitWsAux (cur : Str) : Str → List Str
  | [] => if cur.isEmpty then [] else [cur]
  | c :: rest =>
    if isSpaceChar c then
      if cur.isEmpty then splitWsAux [] rest else cur :: splitWsAux [] rest
    else splitWsAux (cur ++ [c]) rest

/-- Python `str.split()`: whitespace-separated words, empties dropped. -/
def splitWs (s : Str) : List Str := splitWsAux [] s

/-- A whitespace-delimited token consisting entirely of uppercase letters. -/
def allCapsWord (w : Str) : Bool := !w.isEmpty && w.all Char.isUpper

/-- Some two adjacent tokens are both ALL-CAPS words. -/
def pairsCheck : List Str → Bool
  | w1 :: w2 :: rest => (allCapsWord w1 && allCapsWord w2) || pairsCheck (w2 :: rest)
  | _ => false

/-- Claim-side predicate, following the words of the claim for the embedded
command: the utterance contains a run of at least 2 consecutive ALL-CAPS
words. -/
def hasTwoConsecCapsWords (s : Str) : Bool := pairsCheck (splitWs s)

/-- The 14 acknowledgement terms compiled in `_compile_patterns`. -/
def acknowledge_terms : List Str :=
  ["perfect".toList, "that makes perfect sense".toList, "absolutely".toList,
   "great".toList, "fantastic".toList, "you're absolutely right".toList,
   "that's valid".toList, "you're right".toList, "i can appreciate that".toList,
   "i understand your concern".toList, "amazing".toList,
   "most people tell me that".toList, "i can see the benefit".toList,
   "wonderful".toList]

/-- Feedback line for two or more acknowledgement terms. -/
def ackExcellentLine (t0 t1 : Str) : Str :=
  ("✓ Excellent acknowledgement: used '".toList) ++ t0 ++ ("' and '".toList)
    ++ t1 ++ ("'".toList)

/-- Feedback line for exactly one acknowledgement term. -/
def ackGoodLine (t0 : Str) : Str :=
  ("✓ Good acknowledgement: used '".toList) ++ t0 ++ ("'".toList)

/-- Feedback line for no acknowledgement term. -/
def missingAckLine : Str :=
  "⚠️ Missing acknowledgement - start with 'Perfect', 'I can appreciate that', etc.".toList

/-- `_score_acknowledge_affirm(agent_lower)`: score and feedback. -/
def score_acknowledge_affirm (agent_lower : Str) : Nat × List Str :=
  let found := acknowledge_terms.filter (fun t => containsSub t agent_lower)
  if 2 ≤ found.length then
    (3, [ackExcellentLine (found.headD []) ((found.drop 1).headD [])])
  else if found.length = 1 then (2, [ackGoodLine (found.headD [])])
  else (0, [missingAckLine])

/-- The six isolation patterns of `_compile_patterns`, each applied to the
lower-cased utterance with `re.search`; the two patterns containing `.+` go
through `searchSeq`, the four literal patterns are substring tests. -/
def isolationChecks (s : Str) : List Bool :=
  [searchSeq ("besides ".toList) (", is there any".toList) s,
   searchSeq ("other than ".toList) (", is there".toList) s,
   containsSub ("out of curiosity, what".toList) s,
   containsSub ("what is the benefit".toList) s,
   containsSub ("what specifically makes you".toList) s,
   containsSub ("any other reason you wouldn't".toList) s]

/-- Feedback line for two or more isolation patterns. -/
def isoExcellentLine : Str :=
  "✓ Excellent isolation: asked multiple clarifying questions".toList

/-- Feedback line for exactly one isolation pattern. -/
def isoGoodLine : Str := "✓ Good isolation: asked clarifying question".toList

/-- Feedback line for no isolation pattern. -/
def missingIsoLine : Str :=
  "⚠️ Missing isolation - ask 'Besides that, is there any other reason you wouldn't...?'".toList

/-- `_score_isolate(agent_lower)`: score and feedback. -/
def score_isolate (agent_lower : Str) : Nat × List Str :=
  let n := (isolationChecks agent_lower).count true
  if 2 ≤ n then (3, [isoExcellentLine])
  else if n = 1 then (2, [isoGoodLine])
  else (0, [missingIsoLine])

/-- `re.search` of the Feel-Felt-Found pattern `(how you feel|you felt|they found)`. -/
def fffMatch (s : Str) : Bool :=
  containsSub ("how you feel".toList) s || containsSub ("you felt".toList) s
    || containsSub ("they found".toList) s

/-- `re.search` of the pattern `has there ever been a time`. -/
def htebMatch (s : Str) : Bool := containsSub ("has there ever been a time".toList) s

/-- The six level-shift phrases of `_score_handle`. -/
def level_shift_phrases : List Str :=
  ["what i think you're saying".toList, "the real issue".toList,
   "what appears most important".toList, "what i sense".toList,
   "i believe you're asking".toList, "what i hear you saying".toList]

/-- `any(phrase in agent_lower for phrase in level_shift_phrases)`. -/
def levelShiftMatch (s : Str) : Bool :=
  level_shift_phrases.any (fun p => containsSub p s)

/-- Feedback line for the Feel-Felt-Found technique. -/
def fffLine : Str := "✓ Used Feel-Felt-Found empathy technique".toList

/-- Feedback line for the Has There Ever Been pattern. -/
def htebLine : Str :=
  "✓ Used 'Has There Ever Been' pattern - leveraging past mistakes".toList

/-- Feedback line for the Level Shift reframe. -/
def lsLine : Str := "✓ Used Level Shift to reframe".toList

/-- Feedback line for an embedded command, carrying the first regex match. -/
def embLine (agent_full : Str) : Str :=
  ("✓ Used embedded command: ".toList) ++ ((findEmbeddedFirst none agent_full).getD [])

/-- Nudge emitted when no handle technique scored any point. -/
def nudgeLine : Str :=
  "⚠️ Consider using Feel-Felt-Found or Has There Ever Been technique".toList

/-- Running subtotal of `_score_handle` before the floor-to-1 rule and the cap:
+2 for Feel-Felt-Found, +2 for Has There Ever Been, +1 for a level-shift
phrase, +1 for an embedded command. -/
def handleRaw (agent_lower agent_full : Str) : Nat :=
  (if fffMatch agent_lower then 2 else 0) + (if htebMatch agent_lower then 2 else 0)
    + (if levelShiftMatch agent_lower then 1 else 0)
    + (if embeddedAward agent_full then 1 else 0)

/-- Feedback accumulated by the four technique checks of `_score_handle`,
in source order. -/
def handleFeedback (agent_lower agent_full : Str) : List Str :=
  (if fffMatch agent_lower then [fffLine] else [])
    ++ (if htebMatch agent_lower then [htebLine] else [])
    ++ (if levelShiftMatch agent_lower then [lsLine] else [])
    ++ (if embeddedAward agent_full then [embLine agent_full] else [])

/-- `_score_handle(agent_lower, agent_full)`: the additive subtotal, floored
to 1 when it is 0 (emitting the nudge), then capped with `min(3, score)`. -/
def score_handle (agent_lower agent_full : Str) : Nat × List Str :=
  (min 3 (if handleRaw agent_lower agent_full = 0 then 1
          else handleRaw agent_lower agent_full),
   handleFeedback agent_lower agent_full
     ++ (if handleRaw agent_lower agent_full = 0 then [nudgeLine] else []))

/-- The seven closing patterns of `_compile_patterns`; the alternation
`does that (make sense|sound good|work for you)` is one pattern matching any
of its three branches. -/
def closeChecks (s : Str) : List Bool :=
  [containsSub ("which works better".toList) s,
   containsSub ("does that make sense".toList) s
     || containsSub ("does that sound good".toList) s
     || containsSub ("does that work for you".toList) s,
   containsSub ("would you like to".toList) s,
   containsSub ("why don't we".toList) s,
   containsSub ("let's".toList) s,
   containsSub ("can you see".toList) s,
   containsSub ("please sign".toList) s]

/-- Feedback line for two or more closing patterns. -/
def closeStrongLine : Str :=
  "✓ Strong close: multiple closing questions/statements".toList

/-- Feedback line for exactly one closing pattern. -/
def closeAttemptLine : Str := "✓ Attempted close".toList

/-- Feedback line for no closing pattern. -/
def missingCloseLine : Str :=
  "⚠️ Missing close - try 'Does that make sense?', 'Which works better for you?'".toList

/-- `_score_close(agent_lower)`: score and feedback. -/
def score_close (agent_lower : Str) : Nat × List Str :=
  let n := (closeChecks agent_lower).count true
  if 2 ≤ n then (2, [closeStrongLine])
  else if n = 1 then (1, [closeAttemptLine])
  else (0, [missingCloseLine])

/-- One entry of the external magic-phrase configuration (`magic_phrases.json`,
spec section 4.1): a template name and the whitespace-split, lower-cased
keyword tokens of its `pattern` field.  Entries without a `pattern` field are
never matched nor reported by `_detect_magic_phrases`, so they are omitted
from the model. -/
structure MagicPhrase where
  name : Str
  keywords : List Str
deriving Repr, DecidableEq

/-- `_detect_magic_phrases(agent_lower)`: a template matches when any of the
first three keyword tokens of its pattern occurs in the utterance; the names
of matching templates are returned in configuration order. -/
def detect_magic_phrases (mp : List MagicPhrase) (agent_lower : Str) : List Str :=
  (mp.filter (fun p => (p.keywords.take 3).any (fun k => containsSub k agent_lower))).map
    (fun p => p.name)

/-- Breaker message for `\bi understand\b(?! your concern)`. -/
def breakerMsg1 : Str := "Used 'I understand' without qualifier - breaks rapport".toList

/-- Breaker message for `\byou'?re wrong\b`. -/
def breakerMsg2 : Str := "Told client they're wrong - breaks rapport".toList

/-- Breaker message for `\bactually\b`. -/
def breakerMsg3 : Str := "Used 'actually' - can sound argumentative".toList

/-- Breaker message for `\bbut you said\b`. -/
def breakerMsg4 : Str := "Contradicted client - breaks rapport".toList

/-- `_detect_rapport_breakers(agent_lower)`: the messages of the matching
rapport-breaker patterns, in the dict's insertion order. -/
def detect_rapport_breakers (agent_lower : Str) : List Str :=
  (if searchIUnderstand none agent_lower then [breakerMsg1] else [])
    ++ (if searchWordLit ("you're wrong".toList) none agent_lower
          || searchWordLit ("youre wrong".toList) none agent_lower
        then [breakerMsg2] else [])
    ++ (if searchWordLit ("actually".toList) none agent_lower then [breakerMsg3] else [])
    ++ (if searchWordLit ("but you said".toList) none agent_lower then [breakerMsg4] else [])

/-- `TurnScore` of `conversation_scorer.py` (the score fields and lists). -/
structure TurnScore where
  acknowledge_affirm : Nat := 0
  isolate : Nat := 0
  handle : Nat := 0
  close : Nat := 0
  magic_phrases_used : List Str := []
  techniques_detected : List Str := []
  rapport_breakers : List Str := []
  feedback : List Str := []
deriving Repr, DecidableEq

/-- The `TurnScore.total` property: sum of the four sub-scores. -/
def TurnScore.total (s : TurnScore) : Nat :=
  s.acknowledge_affirm + s.isolate + s.handle + s.close

/-- The `TurnScore.max_score` property. -/
def TurnScore.max_score (_ : TurnScore) : Nat := 11

/-- The lower-cased word `technique`, used by `score_turn` to pick handle
feedback lines into `techniques_detected`. -/
def techLower : Str := "technique".toList

/-- Penalty feedback line appended when rapport breakers were detected:
`f"⚠️ Rapport breakers detected: -{penalty} points"`. -/
def penaltyLine (penalty : Nat) : Str :=
  ("⚠️ Rapport breakers detected: -".toList) ++ (toString penalty).toList
    ++ (" points".toList)

/-- `ConversationScorer.score_turn(agent_message, context)`.  `context` is
accepted but never read by the body.  The sub-scores come from the four
sub-scorers on the lower-cased utterance; `techniques_detected` keeps the
handle feedback lines whose lower-casing contains `technique`; detected
rapport breakers only append the penalty feedback line. -/
def score_turn (mp : List MagicPhrase) (agent_message : Str) (context : Option Str) :
    TurnScore :=
  let agent_lower := lowerStr agent_message
  { acknowledge_affirm := (score_acknowledge_affirm agent_lower).1
    isolate := (score_isolate agent_lower).1
    handle := (score_handle agent_lower agent_message).1
    close := (score_close agent_lower).1
    magic_phrases_used := detect_magic_phrases mp agent_lower
    techniques_detected :=
      (score_handle agent_lower agent_message).2.filter
        (fun fb => containsSub techLower (lowerStr fb))
    rapport_breakers := detect_rapport_breakers agent_lower
    feedback :=
      (score_acknowledge_affirm agent_lower).2 ++ (score_isolate agent_lower).2
        ++ (score_handle agent_lower agent_message).2 ++ (score_close agent_lower).2
        ++ (if (detect_rapport_breakers agent_lower).isEmpty then []
            else [penaltyLine (detect_rapport_breakers agent_lower).length]) }

/-- `PersonaCharacter.adjust_cooperation`, in explicit state-passing form:
given the current `cooperation_level` and the turn's `agent_response_quality`,
the new cooperation level.  The four branches mirror the source's
`if/elif/elif/else` chain. -/
def adjust_cooperation (cooperation_level agent_response_quality : Int) : Int :=
  if 8 ≤ agent_response_quality then min 10 (cooperation_level + 2)
  else if 5 ≤ agent_response_quality then min 10 (cooperation_level + 1)
  else if agent_response_quality < 3 then max 0 (cooperation_level - 2)
  else max 0 (cooperation_level - 1)

/-- `TranscriptSegment` of `audio_processor.py`.  Timestamps are floats in the
source but are only ever compared for order, so they are embedded as
integers (`stop` embeds the source's `end` field). -/
structure TranscriptSegment where
  start : Int
  stop : Int
  text : Str
  speaker : Option Str := none
deriving Repr, DecidableEq

/-- `CallTranscript` of `audio_processor.py`. -/
structure CallTranscript where
  segments : List TranscriptSegment
  duration : Int
  language : Str
deriving Repr, DecidableEq

/-- The speaker label `"agent"`. -/
def agentLabel : Str := "agent".toList

/-- The speaker label `"client"`. -/
def clientLabel : Str := "client".toList

/-- `CallTranscript.get_agent_turns`: `(text, start)` of agent segments. -/
def get_agent_turns (t : CallTranscript) : List (Str × Int) :=
  (t.segments.filter (fun s => s.speaker == some agentLabel)).map
    (fun s => (s.text, s.start))

/-- `CallTranscript.get_client_turns`: `(text, start)` of client segments. -/
def get_client_turns (t : CallTranscript) : List (Str × Int) :=
  (t.segments.filter (fun s => s.speaker == some clientLabel)).map
    (fun s => (s.text, s.start))

/-- The inner loop of `CallAnalyzer._extract_turns`: starting from
`client_text = acc` (initially the empty string), walk the client turns in
order, remembering the message of each turn whose time is `<` the agent turn's
time, and `break` at the first turn whose time is not. -/
def findPrecedingClient (acc : Str) : List (Str × Int) → Int → Str
  | [], _ => acc
  | x :: rest, agent_time =>
    if x.2 < agent_time then findPrecedingClient x.1 rest agent_time else acc

/-- `CallAnalyzer._extract_turns(transcript)`: one `(agent_text, client_text)`
pair per agent turn, where `client_text` is produced by the inner scan over
the client turns. -/
def extract_turns (t : CallTranscript) : List (Str × Str) :=
  (get_agent_turns t).map
    (fun p => (p.1, findPrecedingClient [] (get_client_turns t) p.2))

/-- Specification-side definition, from the words of spec section 4.4: the text
of the most recent client-labeled turn whose start time is strictly less than
the given time (with the transcript chronologically ordered, the last such
turn in order), or the empty string when none precedes. -/
def mostRecentClientBefore (clients : List (Str × Int)) (time : Int) : Str :=
  ((clients.filter (fun p => decide (p.2 < time))).map (fun p => p.1)).getLastD []

/-- `" ".join(...)` on embedded strings. -/
def joinSpace (l : List Str) : Str := List.intercalate ([' ']) l

/-- The technique-name key `"Feel-Felt-Found"` tested against the joined
technique lines in `_identify_key_wins` and `_recommend_techniques`. -/
def fffName : Str := "Feel-Felt-Found".toList

/-- The technique-name key `"Has There Ever Been"`. -/
def htebName : Str := "Has There Ever Been".toList

/-- Recommendation emitted when `"Feel-Felt-Found"` never occurred. -/
def fffRecLine : Str :=
  "Try Feel-Felt-Found: 'I know how you FEEL... clients have FELT the same... but what they FOUND was...'".toList

/-- Recommendation emitted when `"Has There Ever Been"` never occurred. -/
def htebRecLine : Str :=
  "Use 'Has There Ever Been': Leverage past mistakes to prevent new ones".toList

/-- Recommendation emitted when more than half the turns scored isolate < 2. -/
def isoRecLine : Str :=
  "Practice isolation: 'Besides X, is there any other reason you wouldn't Y?'".toList

/-- The `all_techniques` accumulation of `_recommend_techniques`, joined with
`" ".join`: every turn's `techniques_detected` lines concatenated in order. -/
def allTechniques (scores : List TurnScore) : Str :=
  joinSpace (scores.foldl (fun acc s => acc ++ s.techniques_detected) [])

/-- `CallAnalyzer._recommend_techniques(scores)`: suggest Feel-Felt-Found and
Has There Ever Been when their names do not occur in the joined technique
lines, and isolation practice when `low_isolation_count > len(scores) / 2`. -/
def recommend_techniques (scores : List TurnScore) : List Str :=
  (if containsSub fffName (allTechniques scores) then [] else [fffRecLine])
    ++ (if containsSub htebName (allTechniques scores) then [] else [htebRecLine])
    ++ (if scores.length < 2 * (scores.filter (fun s => decide (s.isolate < 2))).length
        then [isoRecLine] else [])

/-- An empty magic-phrase configuration, for concrete evaluations (the four
sub-scores never depend on the configuration). -/
def noPhrases : List MagicPhrase := []

/-- Concrete utterance for the embedded-command counterexample: it contains the
single isolated ALL-CAPS word `SIGN` (and the one-letter word `I`, which the
regex cannot match), but no run of two consecutive ALL-CAPS words. -/
def capsCexUtterance : Str := "I know how you feel, SIGN here".toList

/-- Concrete transcript of spec section 8: segments at times 0, 5, 10, 15
labeled client, agent, client, agent. -/
def exampleTranscript : CallTranscript :=
  { segments :=
      [{ start := 0, stop := 4, text := "text at 0".toList, speaker := some clientLabel },
       { start := 5, stop := 9, text := "text at 5".toList, speaker := some agentLabel },
       { start := 10, stop := 14, text := "text at 10".toList, speaker := some clientLabel },
       { start := 15, stop := 16, text := "text at 15".toList, speaker := some agentLabel }],
    duration := 16,
    language := "en".toList }

/-- Concrete transcript with one agent segment and zero client segments. -/
def agentOnlyTranscript : CallTranscript :=
  { segments := [{ start := 0, stop := 2, text := "hello there".toList,
                   speaker := some agentLabel }],
    duration := 2,
    language := "en".toList }

/-- Concrete transcript with one client segment and zero agent segments. -/
def clientOnlyTranscript : CallTranscript :=
  { segments := [{ start := 0, stop := 2, text := "too expensive".toList,
                   speaker := some clientLabel }],
    duration := 2,
    language := "en".toList }

/-- Concrete utterance matching the Has There Ever Been pattern and no other
handle technique. -/
def htebUtterance : Str := "has there ever been a time".toList

/-- C1: every `TurnScore` produced by `score_turn` has `total` equal to the
arithmetic sum of the four sub-scores; each sub-score equals the corresponding
sub-scorer applied to the utterance alone, independently of the rapport-breaker
detection; and when rapport breakers are found only the penalty feedback line
is appended, leaving the numeric scores unchanged. -/
theorem C1_scoring_invariant (mp : List MagicPhrase) (u : Str) (c : Option Str) :
    (score_turn mp u c).total
        = (score_turn mp u c).acknowledge_affirm + (score_turn mp u c).isolate
          + (score_turn mp u c).handle + (score_turn mp u c).close
      ∧ (score_turn mp u c).acknowledge_affirm = (score_acknowledge_affirm (lowerStr u)).1
      ∧ (score_turn mp u c).isolate = (score_isolate (lowerStr u)).1
      ∧ (score_turn mp u c).handle = (score_handle (lowerStr u) u).1
      ∧ (score_turn mp u c).close = (score_close (lowerStr u)).1
      ∧ (score_turn mp u c).feedback
        = (score_acknowledge_affirm (lowerStr u)).2 ++ (score_isolate (lowerStr u)).2
          ++ (score_handle (lowerStr u) u).2 ++ (score_close (lowerStr u)).2
          ++ (if (detect_rapport_breakers (lowerStr u)).isEmpty then []
              else [penaltyLine (detect_rapport_breakers (lowerStr u)).length]) :=
  ⟨rfl, rfl, rfl, rfl, rfl, rfl⟩

/-- C9: `score_turn` is a pure function of the utterance and the
configuration; its `context` argument never influences the result, so any two
context values (including `none`) give identical `TurnScore` contents. -/
theorem C9_context_independence (mp : List MagicPhrase) (u : Str) (c1 c2 : Option Str) :
    score_turn mp u c1 = score_turn mp u c2 := rfl

/-- C3: for cooperation in `[0,10]` and turn total in `[0,11]`,
`adjust_cooperation` follows exactly the four bands of the spec, the bands are
exhaustive and pairwise non-overlapping, and the result stays in `[0,10]`. -/
theorem C3_adjust_bands (c t : Int) (hc0 : 0 ≤ c) (hc1 : c ≤ 10)
    (ht0 : 0 ≤ t) (ht1 : t ≤ 11) :
    (8 ≤ t → adjust_cooperation c t = min 10 (c + 2))
      ∧ (5 ≤ t ∧ t < 8 → adjust_cooperation c t = min 10 (c + 1))
      ∧ (t < 3 → adjust_cooperation c t = max 0 (c - 2))
      ∧ (3 ≤ t ∧ t < 5 → adjust_cooperation c t = max 0 (c - 1))
      ∧ (8 ≤ t ∨ (5 ≤ t ∧ t < 8) ∨ t < 3 ∨ (3 ≤ t ∧ t < 5))
      ∧ ¬(8 ≤ t ∧ 5 ≤ t ∧ t < 8) ∧ ¬(8 ≤ t ∧ t < 3) ∧ ¬(8 ≤ t ∧ 3 ≤ t ∧ t < 5)
      ∧ ¬((5 ≤ t ∧ t < 8) ∧ t < 3) ∧ ¬((5 ≤ t ∧ t < 8) ∧ 3 ≤ t ∧ t < 5)
      ∧ ¬(t < 3 ∧ 3 ≤ t ∧ t < 5)
      ∧ 0 ≤ adjust_cooperation c t ∧ adjust_cooperation c t ≤ 10 := by
  unfold adjust_cooperation
  split_ifs <;> omega

/-- C3 witness: by the band theorem, a turn total of 11 at cooperation 9
clamps to 10, and a turn total of 0 at cooperation 1 clamps to 0. -/
theorem C3_adjust_witness :
    adjust_cooperation 9 11 = 10 ∧ adjust_cooperation 1 0 = 0 := by
  constructor
  · rw [(C3_adjust_bands 9 11 (by decide) (by decide) (by decide) (by decide)).1
      (by decide)]
    decide
  · rw [(C3_adjust_bands 1 0 (by decide) (by decide) (by decide) (by decide)).2.2.1
      (by decide)]
    decide

/-- C7: `adjust_cooperation` is defined for every integer turn total and
behaves exactly as if the turn total were first clamped to `[0,11]`; with
cooperation in `[0,10]` the result stays in `[0,10]`. -/
theorem C7_clamp_equivalence (c t : Int) (hc0 : 0 ≤ c) (hc1 : c ≤ 10) :
    adjust_cooperation c t = adjust_cooperation c (max 0 (min 11 t))
      ∧ 0 ≤ adjust_cooperation c t ∧ adjust_cooperation c t ≤ 10 := by
  unfold adjust_cooperation
  split_ifs <;> omega

/-- C7 witness: the clamping equivalence applied at cooperation 5 and the
out-of-range turn total 100. -/
theorem C7_clamp_witness :
    adjust_cooperation 5 100 = adjust_cooperation 5 (max 0 (min 11 100))
      ∧ 0 ≤ adjust_cooperation 5 100 ∧ adjust_cooperation 5 100 ≤ 10 :=
  C7_clamp_equivalence 5 100 (by decide) (by decide)

/-- C2 counterexample: on the empty string the four sub-scores are not all 0 —
the handle sub-score is floored to 1 by `_score_handle`. -/
theorem C2_counterexample :
    ¬ ((score_turn noPhrases [] none).acknowledge_affirm = 0
        ∧ (score_turn noPhrases [] none).isolate = 0
        ∧ (score_turn noPhrases [] none).handle = 0
        ∧ (score_turn noPhrases [] none).close = 0) := by
  decide

/-- C2 (amended): on any utterance matching no rubric pattern — in particular
the empty string — `score_turn` returns acknowledge 0, isolate 0, handle 1
(baseline credit), close 0, with a missing-X feedback line for acknowledge,
isolate and close and the technique nudge for handle; being a total function
of the utterance, it never raises. -/
theorem C2_no_pattern_scores (mp : List MagicPhrase) (u : Str) (c : Option Str)
    (hack : acknowledge_terms.filter (fun t => containsSub t (lowerStr u)) = [])
    (hiso : (isolationChecks (lowerStr u)).count true = 0)
    (hfff : fffMatch (lowerStr u) = false) (hhteb : htebMatch (lowerStr u) = false)
    (hls : levelShiftMatch (lowerStr u) = false) (hemb : embeddedAward u = false)
    (hclose : (closeChecks (lowerStr u)).count true = 0)
    (hbrk : detect_rapport_breakers (lowerStr u) = []) :
    (score_turn mp u c).acknowledge_affirm = 0 ∧ (score_turn mp u c).isolate = 0
      ∧ (score_turn mp u c).handle = 1 ∧ (score_turn mp u c).close = 0
      ∧ (score_turn mp u c).feedback
        = [missingAckLine, missingIsoLine, nudgeLine, missingCloseLine] := by
  have hraw : handleRaw (lowerStr u) u = 0 := by
    simp [handleRaw, hfff, hhteb, hls, hemb]
  have hackF : score_acknowledge_affirm (lowerStr u) = (0, [missingAckLine]) := by
    simp [score_acknowledge_affirm, hack]
  have hisoF : score_isolate (lowerStr u) = (0, [missingIsoLine]) := by
    simp [score_isolate, hiso]
  have hhF : score_handle (lowerStr u) u = (1, [nudgeLine]) := by
    simp [score_handle, hraw, handleFeedback, hfff, hhteb, hls, hemb]
  have hcF : score_close (lowerStr u) = (0, [missingCloseLine]) := by
    simp [score_close, hclose]
  refine ⟨?_, ?_, ?_, ?_, ?_⟩
  · show (score_acknowledge_affirm (lowerStr u)).1 = 0
    rw [hackF]
  · show (score_isolate (lowerStr u)).1 = 0
    rw [hisoF]
  · show (score_handle (lowerStr u) u).1 = 1
    rw [hhF]
  · show (score_close (lowerStr u)).1 = 0
    rw [hcF]
  · show (score_acknowledge_affirm (lowerStr u)).2 ++ (score_isolate (lowerStr u)).2
        ++ (score_handle (lowerStr u) u).2 ++ (score_close (lowerStr u)).2
        ++ (if (detect_rapport_breakers (lowerStr u)).isEmpty then []
            else [penaltyLine (detect_rapport_breakers (lowerStr u)).length])
      = [missingAckLine, missingIsoLine, nudgeLine, missingCloseLine]
    rw [hackF, hisoF, hhF, hcF, hbrk]
    rfl

/-- C2 witness: the amended statement evaluated on the empty string. -/
theorem C2_no_pattern_witness :
    (score_turn noPhrases [] none).acknowledge_affirm = 0
      ∧ (score_turn noPhrases [] none).isolate = 0
      ∧ (score_turn noPhrases [] none).handle = 1
      ∧ (score_turn noPhrases [] none).close = 0
      ∧ (score_turn noPhrases [] none).feedback
        = [missingAckLine, missingIsoLine, nudgeLine, missingCloseLine] :=
  C2_no_pattern_scores noPhrases [] none (by decide) (by decide) (by decide)
    (by decide) (by decide) (by decide) (by decide) (by decide)

/-- C6 counterexample: a transcript with one agent segment and zero client
segments does not produce an empty pairing sequence — the code emits one pair
with an empty counterpart text. -/
theorem C6_counterexample : extract_turns agentOnlyTranscript ≠ [] := by
  decide

/-- C6 (amended): with zero agent segments, `_extract_turns` returns the empty
pairing sequence; with zero client segments it returns one pair per agent
segment, each carrying the empty string as counterpart text. -/
theorem C6_empty_side_cases (t : CallTranscript) :
    (get_agent_turns t = [] → extract_turns t = [])
      ∧ (get_client_turns t = [] →
          extract_turns t = (get_agent_turns t).map (fun p => (p.1, ([] : Str)))) := by
  constructor
  · intro h
    simp [extract_turns, h]
  · intro h
    simp [extract_turns, h, findPrecedingClient]

/-- C6 witness: the amended statement at a client-only and an agent-only
transcript. -/
theorem C6_empty_witness :
    extract_turns clientOnlyTranscript = []
      ∧ extract_turns agentOnlyTranscript
        = (get_agent_turns agentOnlyTranscript).map (fun p => (p.1, ([] : Str))) :=
  ⟨(C6_empty_side_cases clientOnlyTranscript).1 (by decide),
   (C6_empty_side_cases agentOnlyTranscript).2 (by decide)⟩

/-- The first-match scan of the embedded-command regex succeeds exactly when
some position carries a word-boundary-delimited run of at least two
consecutive uppercase letters. -/
theorem findEmbeddedFirst_isSome (s : Str) :
    ∀ prev, (findEmbeddedFirst prev s).isSome = delimCapsRun prev s := by
  induction s with
  | nil => intro prev; rfl
  | cons c rest ih =>
    intro prev
    cases hb : headCond prev (c :: rest) with
    | true => simp [findEmbeddedFirst, delimCapsRun, hb]
    | false => simp [findEmbeddedFirst, delimCapsRun, hb, ih]

/-- C5 counterexample: `"I know how you feel, SIGN here"` contains no run of
two consecutive ALL-CAPS words, yet the embedded-command point is awarded
(and lifts the handle sub-score from 2 to 3): the regex `[A-Z]{2,}` already
matches a single ALL-CAPS word of at least two letters. -/
theorem C5_counterexample :
    embeddedAward capsCexUtterance = true
      ∧ hasTwoConsecCapsWords capsCexUtterance = false
      ∧ (score_turn noPhrases capsCexUtterance none).handle = 3 := by
  decide

/-- C5 (amended): the embedded-command +1 condition of `_score_handle` holds
if and only if the utterance contains a run of at least two consecutive
uppercase letters delimited by word boundaries — so a single isolated
ALL-CAPS word of at least two letters qualifies, while a lone capital letter
does not. -/
theorem C5_embedded_characterization (u : Str) :
    embeddedAward u = hasDelimitedCapsRun u :=
  findEmbeddedFirst_isSome u none

/-- C8: the handle sub-score of every scored turn lies in `[1,3]`, and when
none of the four technique checks fires it is exactly 1. -/
theorem C8_handle_bounds (mp : List MagicPhrase) (u : Str) (c : Option Str) :
    1 ≤ (score_turn mp u c).handle ∧ (score_turn mp u c).handle ≤ 3
      ∧ ((fffMatch (lowerStr u) = false ∧ htebMatch (lowerStr u) = false
          ∧ levelShiftMatch (lowerStr u) = false ∧ embeddedAward u = false)
         → (score_turn mp u c).handle = 1) := by
  have hh : (score_turn mp u c).handle
      = min 3 (if handleRaw (lowerStr u) u = 0 then 1 else handleRaw (lowerStr u) u) :=
    rfl
  refine ⟨?_, ?_, ?_⟩
  · rw [hh]
    by_cases h0 : handleRaw (lowerStr u) u = 0
    · simp [h0]
    · rw [if_neg h0]; omega
  · rw [hh]; omega
  · rintro ⟨h1, h2, h3, h4⟩
    have hraw : handleRaw (lowerStr u) u = 0 := by
      simp [handleRaw, h1, h2, h3, h4]
    rw [hh, hraw]
    decide

/-- C8 witness: on the empty string no technique check fires, so the handle
sub-score is exactly 1 (and in particular at least 1). -/
theorem C8_handle_witness :
    1 ≤ (score_turn noPhrases [] none).handle
      ∧ (score_turn noPhrases [] none).handle = 1 :=
  ⟨(C8_handle_bounds noPhrases [] none).1,
   (C8_handle_bounds noPhrases [] none).2.2
     ⟨by decide, by decide, by decide, by decide⟩⟩

/-- Under the hypotheses of the amended C10, a scored turn records no
technique lines: the only handle feedback line is the Has There Ever Been
line, which does not contain the word `technique`, and the nudge (which does)
is not emitted because the subtotal is 2. -/
theorem td_empty (mp : List MagicPhrase) (u : Str) (c : Option Str)
    (h1 : htebMatch (lowerStr u) = true) (h2 : fffMatch (lowerStr u) = false)
    (h3 : levelShiftMatch (lowerStr u) = false) (h4 : embeddedAward u = false) :
    (score_turn mp u c).techniques_detected = [] := by
  have hfb : (score_turn mp u c).techniques_detected
      = (handleFeedback (lowerStr u) u
          ++ (if handleRaw (lowerStr u) u = 0 then [nudgeLine] else [])).filter
          (fun fb => containsSub techLower (lowerStr fb)) := rfl
  have hraw : handleRaw (lowerStr u) u = 2 := by
    simp [handleRaw, h1, h2, h3, h4]
  have hfd : handleFeedback (lowerStr u) u = [htebLine] := by
    simp [handleFeedback, h1, h2, h3, h4]
  rw [hfb, hraw, hfd]
  decide

/-- When every turn in the list carries no technique lines, the accumulated
`all_techniques` list of `_recommend_techniques` stays at its seed. -/
theorem foldl_techniques_nil (l : List TurnScore)
    (h : ∀ s ∈ l, s.techniques_detected = []) :
    ∀ acc : List Str, l.foldl (fun a s => a ++ s.techniques_detected) acc = acc := by
  induction l with
  | nil => intro acc; rfl
  | cons x xs ih =>
    intro acc
    have hx : x.techniques_detected = [] := h x (List.mem_cons_self x xs)
    simp only [List.foldl_cons, hx, List.append_nil]
    exact ih (fun s hs => h s (List.mem_cons_of_mem x hs)) acc

/-- C10 counterexample: the recommendations are not always present — for the
turn scored from the empty utterance, `techniques_detected` holds the nudge
line, which contains both the word `technique` and the substring
`Has There Ever Been`, so the Has There Ever Been suggestion is suppressed. -/
theorem C10_counterexample :
    htebRecLine ∉ recommend_techniques [score_turn noPhrases [] none] := by
  decide

/-- C10 (amended): the Has There Ever Been suggestion is emitted even when
every analyzed utterance matches the has-there-ever-been pattern, provided no
turn's handle subtotal was zero — the has-there-ever-been feedback line lacks
the word `technique` and therefore never enters `techniques_detected`; only
the zero-subtotal nudge line (which contains both `technique` and
`Has There Ever Been`) can suppress the suggestion. -/
theorem C10_hteb_recommendation (mp : List MagicPhrase) (us : List Str)
    (h : ∀ u ∈ us, htebMatch (lowerStr u) = true ∧ fffMatch (lowerStr u) = false
        ∧ levelShiftMatch (lowerStr u) = false ∧ embeddedAward u = false) :
    htebRecLine ∈ recommend_techniques (us.map (fun u => score_turn mp u none)) := by
  have hall : ∀ s ∈ us.map (fun u => score_turn mp u none),
      s.techniques_detected = [] := by
    intro s hs
    rcases List.mem_map.mp hs with ⟨u, hu, rfl⟩
    rcases h u hu with ⟨h1, h2, h3, h4⟩
    exact td_empty mp u none h1 h2 h3 h4
  have hAT : allTechniques (us.map (fun u => score_turn mp u none)) = [] := by
    unfold allTechniques
    rw [foldl_techniques_nil _ hall []]
    rfl
  unfold recommend_techniques
  rw [hAT]
  have hf : containsSub fffName [] = false := by decide
  have hh : containsSub htebName [] = false := by decide
  rw [hf, hh]
  simp

/-- C10 witness: a single utterance consisting of the has-there-ever-been
trigger phrase still yields the Has There Ever Been recommendation. -/
theorem C10_hteb_witness :
    htebRecLine ∈ recommend_techniques
      ([htebUtterance].map (fun u => score_turn noPhrases u none)) :=
  C10_hteb_recommendation noPhrases [htebUtterance] (by decide)

/-- The inner scan of `_extract_turns`, on a chronologically ordered client
list, returns the text of the last client turn strictly before the agent time
(the accumulator when no such turn exists): the loop stops at the first
non-earlier client turn, and sortedness makes every later turn non-earlier
too. -/
theorem findPrecedingClient_eq (clients : List (Str × Int)) (time : Int) :
    clients.Pairwise (fun a b => a.2 ≤ b.2) →
    ∀ acc : Str,
      findPrecedingClient acc clients time
        = ((clients.filter (fun p => decide (p.2 < time))).map
            (fun p => p.1)).getLastD acc := by
  induction clients with
  | nil => intro _ acc; rfl
  | cons x xs ih =>
    intro hs acc
    rcases List.pairwise_cons.mp hs with ⟨hx, hxs⟩
    by_cases hlt : x.2 < time
    · have hL : findPrecedingClient acc (x :: xs) time
          = findPrecedingClient x.1 xs time := by
        simp [findPrecedingClient, hlt]
      rw [hL, ih hxs x.1]
      have hfil : (x :: xs).filter (fun p => decide (p.2 < time))
          = x :: xs.filter (fun p => decide (p.2 < time)) := by
        simp [List.filter_cons, hlt]
      rw [hfil, List.map_cons, List.getLastD_cons]
    · have hnil : xs.filter (fun p => decide (p.2 < time)) = [] := by
        refine List.filter_eq_nil_iff.mpr (fun a ha => ?_)
        have hge := hx a ha
        simp only [decide_eq_true_eq]
        omega
      have hfil : (x :: xs).filter (fun p => decide (p.2 < time)) = [] := by
        simp [List.filter_cons, hlt, hnil]
      rw [hfil]
      simp [findPrecedingClient, hlt]

/-- Chronological order of the transcript segments carries over to the client
turn list produced by `get_client_turns`. -/
theorem client_turns_sorted (t : CallTranscript)
    (h : t.segments.Pairwise (fun a b => a.start ≤ b.start)) :
    (get_client_turns t).Pairwise (fun a b => a.2 ≤ b.2) := by
  unfold get_client_turns
  rw [List.pairwise_map]
  exact h.filter _

/-- C4: on a chronologically ordered, speaker-labeled transcript,
`_extract_turns` produces exactly one pair per agent-labeled segment, pairing
its text with the text of the most recent client-labeled segment whose start
time is strictly less than the agent segment's start time (the empty string
when no client segment precedes it). -/
theorem C4_extract_pairs (t : CallTranscript)
    (hchron : t.segments.Pairwise (fun a b => a.start ≤ b.start)) :
    extract_turns t
      = (get_agent_turns t).map
          (fun p => (p.1, mostRecentClientBefore (get_client_turns t) p.2)) := by
  have hcs := client_turns_sorted t hchron
  unfold extract_turns
  refine List.map_congr_left (fun p _ => ?_)
  rw [findPrecedingClient_eq (get_client_turns t) p.2 hcs []]
  rfl

/-- C4 witness: the spec's example — segments at times 0, 5, 10, 15 labeled
client, agent, client, agent — pairs text@5 with text@0 and text@15 with
text@10. -/
theorem C4_extract_witness :
    extract_turns exampleTranscript
      = (get_agent_turns exampleTranscript).map
          (fun p => (p.1, mostRecentClientBefore (get_client_turns exampleTranscript) p.2))
      ∧ extract_turns exampleTranscript
        = [("text at 5".toList, "text at 0".toList),
           ("text at 15".toList, "text at 10".toList)] :=
  ⟨C4_extract_pairs exampleTranscript (by decide), by decide⟩
